import Mathlib

/-!
Verification of the Ambient-AI healthcare frontend (React/JS) against its
natural-language specification.  The JavaScript source is shallowly embedded:
pure computations become Lean functions over `String`, `ℚ`, `Option` and
`List`; the dashboard effects become explicit step functions over small state
types, with network-call outcomes passed in as explicit parameters.  JS
numbers are modelled by exact rationals, JS `undefined`/`null` by `Option`,
and JS string falsiness (`x || d`) by `jsStrOr`.
-/

/- ───────────────────────── JS primitives ───────────────────────── -/

/-- Models the JS idiom `x || d` for string-valued `x`: `undefined`, `null`
and the empty string are falsy and give the default. -/
def jsStrOr (x : Option String) (d : String) : String :=
  match x with
  | none => d
  | some s => if s = "" then d else s

/-- Models `String.prototype.toLowerCase` (ASCII-faithful). -/
def jsToLower (s : String) : String := ⟨s.data.map Char.toLower⟩

/-- Models `String.prototype.startsWith`. -/
def jsStartsWith (s pre : String) : Bool := pre.data.isPrefixOf s.data

/-- Models `String.prototype.endsWith`. -/
def jsEndsWith (s suffix : String) : Bool := suffix.data.isSuffixOf s.data

/-- Models JS `Math.round` on an exact rational: round half toward +∞. -/
def jsRound (q : ℚ) : ℤ := ⌊q + 1/2⌋

/- ───────────────────────── Data model ─────────────────────────

Client-side shapes of the server payloads, as consumed by the dashboards
(`src/frontend/src/pages/*.jsx`) and the PDF renderer. -/

/-- One teach-back question with optional answer and optional score. -/
structure TeachBackItem where
  id : Nat
  question : String
  patient_answer : Option String
  understanding_score : Option ℚ
  deriving DecidableEq

/-- Structured clinical extraction with four labeled plain-text fields. -/
structure ClinicalReport where
  symptoms : String
  diagnosis : String
  medications : String
  follow_up : String
  deriving DecidableEq

/-- Patient-facing report substructure; `none` models an absent field and
`some ""` an empty one (both falsy in the JS rendering guards). -/
structure PatientReport where
  diagnosis_summary : Option String
  medication_instructions : Option String
  warning_signs : Option String
  content : Option String
  created_at : String
  deriving DecidableEq

/-- One medical image attached to a consultation. -/
structure MedicalImage where
  id : Nat
  filename : String
  image_type : Option String
  description : Option String
  deriving DecidableEq

/-- The consultation aggregate returned by `getConsultation` /
`patientVisits` and threaded through every dashboard. -/
structure Consultation where
  id : Nat
  patient_id : Nat
  status : String
  created_at : String
  patient_name : Option String
  doctor_name : Option String
  doctor_signature_filename : Option String
  transcript : Option String
  clinical_report : Option ClinicalReport
  patient_report : Option PatientReport
  teach_back_items : List TeachBackItem
  medical_images : List MedicalImage
  deriving DecidableEq

/- ───────────────── C1: overall understanding score ─────────────────

From `DoctorDashboard.jsx` lines 268-269:

  const scores = currentConsultation.teach_back_items
      .filter((tb) => tb.understanding_score != null)
      .map((tb) => tb.understanding_score)
  const overallScore = scores.length
      ? Math.round((scores.reduce((a, b) => a + b, 0) / scores.length) * 10) / 10
      : null
-/

/-- Embedding of the overall-understanding-score computation of
`DoctorDashboard.jsx`: filter the items with a present score, project the
scores, and if nonempty take `Math.round((sum / len) * 10) / 10`, else
`null`.  `getD 0` is only a typing device for the projection: every element
surviving the filter has a present score. -/
def overallScore (items : List TeachBackItem) : Option ℚ :=
  let scores := (items.filter fun tb => tb.understanding_score.isSome).map
    fun tb => tb.understanding_score.getD 0
  if scores.length ≠ 0 then
    some ((jsRound (scores.foldl (· + ·) 0 / (scores.length : ℚ) * 10) : ℚ) / 10)
  else none

/-- Rounding a rational to one decimal place, half up. -/
def roundToTenth (q : ℚ) : ℚ := (⌊q * 10 + 1/2⌋ : ℚ) / 10

/-- Modelled from the spec wording, for refinement comparison with
`overallScore`: the arithmetic mean of the `understanding_score` values of
exactly those items whose score is present, rounded to one decimal place,
or absent when no item is scored. -/
def specOverallScore (items : List TeachBackItem) : Option ℚ :=
  let scored := items.filterMap fun tb => tb.understanding_score
  if scored = [] then none
  else some (roundToTenth (scored.sum / (scored.length : ℚ)))

lemma filter_map_scores_eq_filterMap (items : List TeachBackItem) :
    (items.filter fun tb => tb.understanding_score.isSome).map
      (fun tb => tb.understanding_score.getD 0) =
    items.filterMap fun tb => tb.understanding_score := by
  induction items with
  | nil => rfl
  | cons tb rest ih =>
    cases h : tb.understanding_score with
    | none => simpa [List.filter_cons, List.filterMap_cons, h] using ih
    | some q => simpa [List.filter_cons, List.filterMap_cons, h] using ih

lemma foldl_add_eq_sum (l : List ℚ) : l.foldl (· + ·) 0 = l.sum := by
  rw [List.sum_eq_foldl]

lemma overallScore_eq_spec (items : List TeachBackItem) :
    overallScore items = specOverallScore items := by
  simp only [overallScore, specOverallScore, filter_map_scores_eq_filterMap,
    foldl_add_eq_sum]
  rcases h : items.filterMap fun tb => tb.understanding_score with _ | ⟨q, rest⟩
  · simp [h]
  · simp [h, jsRound, roundToTenth]

/-- Sample teach-back items for the concrete scenario of the spec. -/
def tbSample (i : Nat) (score : ℚ) : TeachBackItem :=
  ⟨i, "q", none, some score⟩

/-- C1: the overall understanding score equals the arithmetic mean of the
present `understanding_score` values rounded to one decimal place; it is
absent (never some value, in particular never 0) exactly when no item is
scored; and the concrete scenarios [80, 60, 100] ↦ 80.0 and [80, 100] ↦ 90.0
hold. -/
theorem C1_overall_understanding_score :
    (∀ items : List TeachBackItem, overallScore items = specOverallScore items)
    ∧ (∀ items : List TeachBackItem,
        overallScore items = none ↔
          (items.filterMap fun tb => tb.understanding_score) = [])
    ∧ overallScore [tbSample 1 80, tbSample 2 60, tbSample 3 100] = some 80
    ∧ overallScore [tbSample 1 80, tbSample 3 100] = some 90 := by
  refine ⟨overallScore_eq_spec, fun items => ?_, ?_, ?_⟩
  · rw [overallScore_eq_spec]
    unfold specOverallScore
    rcases h : items.filterMap fun tb => tb.understanding_score with _ | ⟨q, rest⟩ <;>
      simp [h]
  · rw [overallScore_eq_spec]
    have h : (List.filterMap (fun tb => tb.understanding_score)
        [tbSample 1 80, tbSample 2 60, tbSample 3 100]) = ([80, 60, 100] : List ℚ) := rfl
    simp only [specOverallScore, h, List.sum_cons, List.sum_nil, List.length_cons,
      List.length_nil]
    norm_num [roundToTenth]
    intro hc
    simp at hc
  · rw [overallScore_eq_spec]
    have h : (List.filterMap (fun tb => tb.understanding_score)
        [tbSample 1 80, tbSample 3 100]) = ([80, 100] : List ℚ) := rfl
    simp only [specOverallScore, h, List.sum_cons, List.sum_nil, List.length_cons,
      List.length_nil]
    norm_num [roundToTenth]
    intro hc
    simp at hc

/- ───────────────── C10: doctor-name normalization ─────────────────

The expression appears verbatim in `DownloadReportPDF` (src/unnamed/part_006,
lines 128 and 213) and the dashboards (e.g. src/unnamed/part_002 line 229):

  (consultation.doctor_name || 'N/A').startsWith('Dr')
      ? consultation.doctor_name
      : `Dr. $\x7bconsultation.doctor_name || 'N/A'\x7d`
-/

/-- Embedding of the doctor-name normalization used by every report
rendering.  In the true branch the JS returns `doctor_name` itself, which is
then necessarily a present, non-empty string equal to
`jsStrOr doctor_name "N/A"`; `getD "N/A"` renders that branch total. -/
def normalizeDrName (doctor_name : Option String) : String :=
  if jsStartsWith (jsStrOr doctor_name "N/A") "Dr" then doctor_name.getD "N/A"
  else "Dr. " ++ jsStrOr doctor_name "N/A"

lemma jsStartsWith_dr_append (x : String) : jsStartsWith ("Dr. " ++ x) "Dr" = true := by
  have h : ("Dr. " ++ x).data = 'D' :: 'r' :: '.' :: ' ' :: x.data := by
    rw [String.data_append]
    rfl
  simp [jsStartsWith, h, List.isPrefixOf]

lemma ne_empty_of_jsStartsWith_dr {s : String} (h : jsStartsWith s "Dr" = true) :
    s ≠ "" := by
  intro he
  subst he
  simp [jsStartsWith, List.isPrefixOf] at h

lemma normalizeDrName_startsWith (name : Option String) :
    jsStartsWith (normalizeDrName name) "Dr" = true := by
  unfold normalizeDrName
  rcases name with _ | s
  · simp [jsStrOr, jsStartsWith, List.isPrefixOf, jsStartsWith_dr_append]
  · by_cases he : s = ""
    · subst he
      simp [jsStrOr, jsStartsWith, List.isPrefixOf, jsStartsWith_dr_append]
    · simp only [jsStrOr, if_neg he]
      by_cases hd : jsStartsWith s "Dr" = true
      · simp [hd]
      · simp only [Bool.not_eq_true] at hd
        simp [hd, jsStartsWith_dr_append]

lemma normalizeDrName_of_dr {s : String} (hne : s ≠ "")
    (hd : jsStartsWith s "Dr" = true) : normalizeDrName (some s) = s := by
  simp [normalizeDrName, jsStrOr, hne, hd]

/-- C10: the normalization always yields a string starting with "Dr"; a
present non-empty name that already starts with "Dr" is returned unchanged;
a present non-empty name that does not gets the prefix "Dr. "; a missing or
empty name becomes "Dr. N/A"; and the normalization is idempotent. -/
theorem C10_doctor_name_normalization :
    (∀ name : Option String, jsStartsWith (normalizeDrName name) "Dr" = true)
    ∧ (∀ s : String, s ≠ "" → jsStartsWith s "Dr" = true →
        normalizeDrName (some s) = s)
    ∧ (∀ s : String, s ≠ "" → jsStartsWith s "Dr" = false →
        normalizeDrName (some s) = "Dr. " ++ s)
    ∧ normalizeDrName none = "Dr. N/A"
    ∧ normalizeDrName (some "") = "Dr. N/A"
    ∧ (∀ name : Option String,
        normalizeDrName (some (normalizeDrName name)) = normalizeDrName name) := by
  refine ⟨normalizeDrName_startsWith, fun s hne hd => normalizeDrName_of_dr hne hd,
    fun s hne hd => ?_, ?_, ?_, fun name => ?_⟩
  · simp [normalizeDrName, jsStrOr, hne, hd]
  · simp [normalizeDrName, jsStrOr, jsStartsWith, List.isPrefixOf]
  · simp [normalizeDrName, jsStrOr, jsStartsWith, List.isPrefixOf]
  · exact normalizeDrName_of_dr
      (ne_empty_of_jsStartsWith_dr (normalizeDrName_startsWith name))
      (normalizeDrName_startsWith name)

/-- Witness for C10: the hypothesis-bearing conjuncts applied at concrete
names. -/
theorem C10_doctor_name_normalization_witness :
    normalizeDrName (some "Dr Smith") = "Dr Smith"
    ∧ normalizeDrName (some "Alice") = "Dr. Alice" := by
  refine ⟨C10_doctor_name_normalization.2.1 "Dr Smith" (by decide) (by decide),
    C10_doctor_name_normalization.2.2.1 "Alice" (by decide) (by decide)⟩

/- ───────────────── C4: client-side audio-file validation ─────────────────

From `handleAudioUpload` in `DoctorDashboard.jsx` lines 111-134:

  const file = e.target.files?.[0]
  if (!file || !currentConsultation) return
  const validTypes = ['audio/wav', 'audio/mp3', 'audio/mpeg', 'audio/webm',
                      'audio/ogg', 'audio/m4a', 'audio/x-m4a']
  if (!validTypes.includes(file.type) && !file.name.match(/\.(wav|mp3|webm|ogg|m4a)$/i)) \x7b
    setError('Please upload a valid audio file (WAV, MP3, WebM, OGG, or M4A)')
    return
  \x7d
  ... await uploadAudio(...)
-/

/-- A file selected in a file input: its `name` and MIME `type`. -/
structure JSFile where
  name : String
  type : String
  deriving DecidableEq

/-- Accepted MIME types for consultation audio. -/
def validAudioTypes : List String :=
  ["audio/wav", "audio/mp3", "audio/mpeg", "audio/webm", "audio/ogg",
   "audio/m4a", "audio/x-m4a"]

/-- Embedding of the regex test `file.name.match(/\.(wav|mp3|webm|ogg|m4a)$/i)`:
the filename ends, case-insensitively, in one of the accepted extensions. -/
def audioExtMatch (name : String) : Bool :=
  ["wav", "mp3", "webm", "ogg", "m4a"].any fun ext =>
    jsEndsWith (jsToLower name) ("." ++ ext)

/-- Error message shown for invalid consultation-audio uploads. -/
def audioValidationMessage : String :=
  "Please upload a valid audio file (WAV, MP3, WebM, OGG, or M4A)"

/-- Observable outcome of the upload handler: do nothing, set an error and
return before any network call, or issue the upload network request. -/
inductive AudioUploadAction where
  | noAction
  | validationFailure (message : String)
  | uploadRequest
  deriving DecidableEq

/-- Embedding of `handleAudioUpload`: guard clauses for a missing file or no
current consultation, client-side type/extension validation, then the
network upload. -/
def handleAudioUpload (file : Option JSFile) (hasCurrentConsultation : Bool) :
    AudioUploadAction :=
  match file with
  | none => .noAction
  | some f =>
    if !hasCurrentConsultation then .noAction
    else if !(validAudioTypes.contains f.type) && !(audioExtMatch f.name) then
      .validationFailure audioValidationMessage
    else .uploadRequest

/-- C4: a selected file whose MIME type is not accepted and whose filename
does not end (case-insensitively) in an accepted audio extension makes the
handler set the human-readable error message; no upload request is issued. -/
theorem C4_audio_upload_validation (f : JSFile)
    (htype : validAudioTypes.contains f.type = false)
    (hext : audioExtMatch f.name = false) :
    handleAudioUpload (some f) true = .validationFailure audioValidationMessage
    ∧ handleAudioUpload (some f) true ≠ .uploadRequest := by
  have hmem : f.type ∉ validAudioTypes := by simpa using htype
  constructor
  · simp [handleAudioUpload, htype, hext, hmem]
  · simp [handleAudioUpload, htype, hext, hmem]

/-- Witness for C4: the spec scenario of a file named `clip.exe`. -/
theorem C4_audio_upload_validation_witness :
    handleAudioUpload (some ⟨"clip.exe", "application/x-msdownload"⟩) true
      = .validationFailure audioValidationMessage
    ∧ handleAudioUpload (some ⟨"clip.exe", "application/x-msdownload"⟩) true
      ≠ .uploadRequest :=
  C4_audio_upload_validation ⟨"clip.exe", "application/x-msdownload"⟩
    (by decide) (by decide)

/- ───────────────── C5: selection fallback after a refetch ─────────────────

From `PatientDashboard.jsx` lines 95-99:

  setSelectedVisit((prev) => \x7b
    if (!prev) return null
    const matching = data.find((v) => v.id === prev.id)
    return matching || data[0] || null
  \x7d)
-/

/-- Embedding of the selection-reconciliation updater passed to
`setSelectedVisit` after a refetch. -/
def nextSelectedVisit (prev : Option Consultation) (data : List Consultation) :
    Option Consultation :=
  match prev with
  | none => none
  | some p =>
    match data.find? fun v => v.id == p.id with
    | some matching => some matching
    | none => data.head?

/-- C5: a previously empty selection stays empty; if the previous selection
identifier is present in the new list the selection maps to a matching new
item of that list; if it is absent the selection falls back to the first
item of the new list (`head?`), hence to none exactly when the list is
empty. -/
theorem C5_selection_fallback (data : List Consultation) :
    (nextSelectedVisit none data = none)
    ∧ (∀ p : Consultation, (∃ v ∈ data, v.id = p.id) →
        ∃ v, nextSelectedVisit (some p) data = some v ∧ v ∈ data ∧ v.id = p.id)
    ∧ (∀ p : Consultation, (∀ v ∈ data, v.id ≠ p.id) →
        nextSelectedVisit (some p) data = data.head?)
    ∧ (∀ p : Consultation, data = [] → nextSelectedVisit (some p) data = none) := by
  refine ⟨rfl, fun p hex => ?_, fun p hnone => ?_, fun p hemp => ?_⟩
  · have hsome : (data.find? fun v => v.id == p.id).isSome := by
      rw [List.find?_isSome]
      rcases hex with ⟨v, hv, hid⟩
      exact ⟨v, hv, by simpa using hid⟩
    rcases hfind : data.find? fun v => v.id == p.id with _ | w
    · rw [hfind] at hsome
      simp at hsome
    · refine ⟨w, by simp [nextSelectedVisit, hfind], List.mem_of_find?_eq_some hfind, ?_⟩
      have := List.find?_some hfind
      simpa using this
  · have hfind : (data.find? fun v => v.id == p.id) = none := by
      rw [List.find?_eq_none]
      intro v hv
      simpa using hnone v hv
    simp [nextSelectedVisit, hfind]
  · subst hemp
    rfl

/-- Minimal consultation value with a given identifier, for witnesses. -/
def cSample (i : Nat) : Consultation :=
  ⟨i, 1, "open", "2024-01-01", none, none, none, none, none, none, [], []⟩

/-- First visit of the refetched list in the C5 witness. -/
def cSampleA : Consultation := cSample 10

/-- Second visit of the refetched list in the C5 witness. -/
def cSampleB : Consultation := cSample 20

/-- Previously selected visit that the refetch no longer returns. -/
def cSampleGone : Consultation := cSample 99

/-- Witness for C5: a selected id absent from the refetched list falls back
to the first item, and one present maps to the matching item. -/
theorem C5_selection_fallback_witness :
    (∀ v ∈ [cSampleA, cSampleB], v.id ≠ cSampleGone.id)
    ∧ nextSelectedVisit (some cSampleGone) [cSampleA, cSampleB] = some cSampleA
    ∧ nextSelectedVisit (some cSampleB) [cSampleA, cSampleB] = some cSampleB := by
  refine ⟨by decide, ?_, ?_⟩
  · exact (C5_selection_fallback [cSampleA, cSampleB]).2.2.1
      cSampleGone (by decide)
  · rcases (C5_selection_fallback [cSampleA, cSampleB]).2.1
      cSampleB ⟨cSampleB, by decide, rfl⟩ with ⟨v, hv, hmem, hid⟩
    rw [hv]
    congr 1
    have : v = cSampleA ∨ v = cSampleB := by simpa using hmem
    rcases this with h | h
    · subst h
      exact absurd hid (by decide)
    · exact h.symm ▸ rfl

/- ───────────────── C6: Unicode font registration fallback ─────────────────

From `registerUnicodeFont` in src/unnamed/part_006 lines 53-75: the language
is looked up in FONT_MAP; with no entry, 'helvetica' is returned without any
fetch; otherwise the font file is fetched, decoded and registered inside a
try/catch whose catch returns 'helvetica'.
-/

/-- One entry of `FONT_MAP`: the font file path and the font family name. -/
structure FontInfo where
  file : String
  family : String
  deriving DecidableEq

/-- Embedding of `FONT_MAP`: Tamil and Hindi have embedded fonts, every
other language (English included) has no entry. -/
def FONT_MAP (language : String) : Option FontInfo :=
  if language = "ta" then some ⟨"/fonts/NotoSansTamil-Regular.ttf", "NotoSansTamil"⟩
  else if language = "hi" then
    some ⟨"/fonts/NotoSansDevanagari-Regular.ttf", "NotoSansDevanagari"⟩
  else none

/-- Outcome of the font-resource fetch/decode pipeline, passed to the
embedding as an explicit parameter: success, a non-ok HTTP response, a
network error, or a decode failure — the last three all land in the catch. -/
inductive FontFetchOutcome where
  | ok
  | notOk
  | networkError
  | decodeError
  deriving DecidableEq

/-- Result of `registerUnicodeFont`: the font family to use and whether a
fetch of the font resource was attempted at all. -/
structure FontRegResult where
  family : String
  fetchAttempted : Bool
  deriving DecidableEq

/-- Embedding of `registerUnicodeFont`: no `FONT_MAP` entry short-circuits
to 'helvetica' without fetching; with an entry, the family is registered on
success and any failure is caught, returning 'helvetica'. -/
def registerUnicodeFont (language : String) (outcome : FontFetchOutcome) :
    FontRegResult :=
  match FONT_MAP language with
  | none => ⟨"helvetica", false⟩
  | some info =>
    match outcome with
    | .ok => ⟨info.family, true⟩
    | _ => ⟨"helvetica", true⟩

/-- C6: any failing fetch/decode outcome yields the fallback family
'helvetica' for every language, and English has no `FONT_MAP` entry, so it
yields 'helvetica' without attempting a fetch regardless of the outcome. -/
theorem C6_font_fallback (language : String) (outcome : FontFetchOutcome)
    (hfail : outcome ≠ .ok) :
    (registerUnicodeFont language outcome).family = "helvetica"
    ∧ FONT_MAP "en" = none
    ∧ registerUnicodeFont "en" outcome = ⟨"helvetica", false⟩ := by
  refine ⟨?_, rfl, rfl⟩
  unfold registerUnicodeFont
  rcases FONT_MAP language with _ | info
  · rfl
  · cases outcome with
    | ok => exact absurd rfl hfail
    | notOk => rfl
    | networkError => rfl
    | decodeError => rfl

/-- Witness for C6: a non-ok response for Tamil falls back to 'helvetica'. -/
theorem C6_font_fallback_witness :
    (registerUnicodeFont "ta" .notOk).family = "helvetica"
    ∧ FONT_MAP "en" = none
    ∧ registerUnicodeFont "en" .notOk = ⟨"helvetica", false⟩ :=
  C6_font_fallback "ta" .notOk (by decide)

/- ───────────────── C7: multipart upload filenames ─────────────────

Two api-module versions exist in the source.  src/unnamed/part_003 lines
70-78 and 80-84:

  const filename = blob.name || 'recording.webm'
  formData.append('file', blob, filename)

versus the older version embedded in DoctorDashboard.jsx lines 1124-1130
(and 1132-1138), which ignores any original name:

  formData.append('file', blob, 'recording.webm')
-/

/-- Filename sent by `uploadAudio` of src/unnamed/part_003: the uploaded
blob name when present and non-empty, the fixed default otherwise. -/
def uploadAudioFilename (blobName : Option String) : String :=
  jsStrOr blobName "recording.webm"

/-- Filename sent by `uploadTeachBackAnswerAllAudio` of src/unnamed/part_003. -/
def uploadTeachBackFilename (blobName : Option String) : String :=
  jsStrOr blobName "teach-back-recording.webm"

/-- Filename sent by the `uploadAudio` version embedded in
`DoctorDashboard.jsx` lines 1124-1130: always the fixed default, discarding
any original name. -/
def uploadAudioFilenameLegacy (_blobName : Option String) : String :=
  "recording.webm"

/-- Counterexample to C7 as stated: the `uploadAudio` at
`DoctorDashboard.jsx` lines 1124-1130 — one of the claim's own cited
multipart upload operations — sends the fixed default name even for a file
carrying the name "clip.wav". -/
theorem C7_counterexample :
    uploadAudioFilenameLegacy (some "clip.wav") = "recording.webm"
    ∧ uploadAudioFilenameLegacy (some "clip.wav") ≠ "clip.wav" := by
  exact ⟨rfl, by decide⟩

/-- C7 (amended): in the api module of src/unnamed/part_003, audio and
teach-back uploads send the original blob name whenever it is present and
non-empty and the fixed default otherwise, while the older api version
embedded in `DoctorDashboard.jsx` always sends the fixed default name. -/
theorem C7_upload_filenames (n : String) (hne : n ≠ "") :
    uploadAudioFilename (some n) = n
    ∧ uploadTeachBackFilename (some n) = n
    ∧ uploadAudioFilename none = "recording.webm"
    ∧ uploadAudioFilename (some "") = "recording.webm"
    ∧ uploadTeachBackFilename none = "teach-back-recording.webm"
    ∧ uploadTeachBackFilename (some "") = "teach-back-recording.webm"
    ∧ uploadAudioFilenameLegacy (some n) = "recording.webm"
    ∧ uploadAudioFilenameLegacy none = "recording.webm" := by
  refine ⟨?_, ?_, rfl, rfl, rfl, rfl, rfl, rfl⟩
  · simp [uploadAudioFilename, jsStrOr, hne]
  · simp [uploadTeachBackFilename, jsStrOr, hne]

/-- Witness for C7 (amended): a named file keeps its name in the part_003
api and loses it in the legacy api. -/
theorem C7_upload_filenames_witness :
    uploadAudioFilename (some "clip.wav") = "clip.wav"
    ∧ uploadTeachBackFilename (some "clip.wav") = "clip.wav"
    ∧ uploadAudioFilename none = "recording.webm"
    ∧ uploadAudioFilename (some "") = "recording.webm"
    ∧ uploadTeachBackFilename none = "teach-back-recording.webm"
    ∧ uploadTeachBackFilename (some "") = "teach-back-recording.webm"
    ∧ uploadAudioFilenameLegacy (some "clip.wav") = "recording.webm"
    ∧ uploadAudioFilenameLegacy none = "recording.webm" :=
  C7_upload_filenames "clip.wav" (by decide)

/- ───────────────── PDF report renderer (src/unnamed/part_006) ─────────────────

The document is modelled as the ordered list of emitted items; numeric
coordinates, colors, font sizes and line wrapping are presentational and are
abstracted away (rectangles and divider lines become `shape`, every `doc.text`
becomes `text`, every `doc.addImage` becomes `image`); locale date formatting
is abstracted as the identity on the stored timestamp string.  The fetch of
the font resource and the load of the signature image are the two effectful
inputs; their outcomes are explicit parameters.
-/

/-- Models `String.prototype.toUpperCase` (ASCII-faithful). -/
def jsToUpper (s : String) : String := ⟨s.data.map Char.toUpper⟩

/-- An HTMLImageElement successfully loaded by `loadImage`. -/
structure SigImage where
  width : ℚ
  height : ℚ
  src : String
  deriving DecidableEq

/-- One primitive emitted into the jsPDF document. -/
inductive DocItem where
  | text (s : String)
  | image (src : String)
  | shape
  deriving DecidableEq

/-- Translated label set of `PDF_LABELS`. -/
structure PDFLabels where
  title : String
  patient : String
  doctor : String
  diagnosis : String
  medication : String
  warning : String
  instructions : String
  generatedOn : String
  system : String
  physician : String
  deriving DecidableEq

/-- English labels (`PDF_LABELS.en`). -/
def pdfLabelsEn : PDFLabels :=
  ⟨"Patient Take-Home Report", "PATIENT", "CONSULTING DOCTOR",
   "Diagnosis Summary", "Medication Instructions",
   "Warning Signs — Seek Immediate Help If:", "Detailed Instructions",
   "Report generated on", "Ambient AI Healthcare System",
   "Consulting Physician"⟩

/-- Tamil labels (`PDF_LABELS.ta`). -/
def pdfLabelsTa : PDFLabels :=
  ⟨"நோயாளி வீட்டிற்கான அறிக்கை", "நோயாளி", "ஆலோசனை மருத்துவர்",
   "நோய் கண்டறிதல் சுருக்கம்", "மருந்து வழிமுறைகள்",
   "எச்சரிக்கை அறிகுறிகள் — உடனடியாக மருத்துவரை அணுகவும்:",
   "விரிவான வழிமுறைகள்", "அறிக்கை தயாரிக்கப்பட்ட தேதி",
   "அம்பியன்ட் AI சுகாதார அமைப்பு", "ஆலோசனை மருத்துவர்"⟩

/-- Hindi labels (`PDF_LABELS.hi`). -/
def pdfLabelsHi : PDFLabels :=
  ⟨"रोगी घर ले जाने वाली रिपोर्ट", "रोगी", "परामर्श चिकित्सक",
   "निदान सारांश", "दवा निर्देश",
   "चेतावनी संकेत — तुरंत चिकित्सा सहायता लें यदि:", "विस्तृत निर्देश",
   "रिपोर्ट तैयार की गई", "एम्बिएंट AI स्वास्थ्य प्रणाली",
   "परामर्श चिकित्सक"⟩

/-- Embedding of the `PDF_LABELS` table. -/
def PDF_LABELS (language : String) : Option PDFLabels :=
  if language = "en" then some pdfLabelsEn
  else if language = "ta" then some pdfLabelsTa
  else if language = "hi" then some pdfLabelsHi
  else none

/-- Embedding of `PDF_LABELS[language] || PDF_LABELS.en`. -/
def labelsFor (language : String) : PDFLabels :=
  (PDF_LABELS language).getD pdfLabelsEn

/-- Embedding of the `addSection` helper: a falsy content (absent or empty)
emits nothing; otherwise the upper-cased section title and the content text
are appended. -/
def addSection (items : List DocItem) (title : String) (content : Option String) :
    List DocItem :=
  match content with
  | none => items
  | some s =>
    if s = "" then items
    else items ++ [DocItem.text (jsToUpper title), DocItem.text s]

/-- Observable result of one `downloadReportPDF` call: the filename passed
to `doc.save` (none when the export early-returns), the emitted document
items, and whether the font resource and the signature image were fetched. -/
structure PDFRun where
  savedFilename : Option String
  items : List DocItem
  fontFetchAttempted : Bool
  sigFetchAttempted : Bool
  deriving DecidableEq

/-- Embedding of `downloadReportPDF` (src/unnamed/part_006 lines 83-220):
early return when `patient_report` is absent; otherwise header banner,
patient/doctor identity block, the four conditional sections, the footer,
the optionally embedded signature image (skipped when the filename is
absent, `getSignatureUrl` is missing, or the load failed), and always the
text-only signature line (normalized doctor name + physician title),
finishing with `doc.save`. -/
def downloadReportPDF (c : Consultation) (hasGetSignatureUrl : Bool)
    (language : String) (fontOutcome : FontFetchOutcome)
    (sigLoad : Option SigImage) : PDFRun :=
  match c.patient_report with
  | none => ⟨none, [], false, false⟩
  | some report =>
    let L := labelsFor language
    let reg := registerUnicodeFont language fontOutcome
    let headerItems : List DocItem :=
      [.shape, .text L.title,
       .text ("Consultation #" ++ toString c.id ++ "  |  " ++ c.created_at),
       .shape, .shape,
       .text L.patient, .text L.doctor,
       .text (jsStrOr c.patient_name ("Patient #" ++ toString c.patient_id)),
       .text (normalizeDrName c.doctor_name)]
    let afterSections :=
      addSection (addSection (addSection (addSection headerItems
        L.diagnosis report.diagnosis_summary)
        L.medication report.medication_instructions)
        L.warning report.warning_signs)
        L.instructions report.content
    let footerItems := afterSections ++
      [.shape, .text (L.generatedOn ++ " " ++ report.created_at), .text L.system]
    let sigFetch := c.doctor_signature_filename.isSome && hasGetSignatureUrl
    let withSig :=
      if sigFetch then
        match sigLoad with
        | some img => footerItems ++ [.image img.src]
        | none => footerItems
      else footerItems
    let finalItems := withSig ++
      [.shape, .text (normalizeDrName c.doctor_name), .text L.physician]
    ⟨some ("Patient-Report-Visit-" ++ toString c.id ++ ".pdf"), finalItems,
     reg.fetchAttempted, sigFetch⟩

lemma addSection_image_not_mem {items : List DocItem} {title : String}
    {content : Option String} {src : String}
    (h : DocItem.image src ∉ items) :
    DocItem.image src ∉ addSection items title content := by
  unfold addSection
  rcases content with _ | s
  · exact h
  · by_cases hs : s = ""
    · simpa [hs] using h
    · simp [hs, h]

/- ───────────────── C3 and C9: PDF export robustness ───────────────── -/

/-- C3: for a consultation with a patient report, the export always
completes with `doc.save` — whatever the language, font outcome, presence of
a signature reference, or signature-load outcome — and the document always
contains the text-only signature line (normalized doctor name and the
physician title); when the signature load fails or no signature reference
exists, the image is simply omitted. -/
theorem C3_pdf_export_signature_fallback (c : Consultation) (r : PatientReport)
    (hreport : c.patient_report = some r) (hasUrl : Bool) (language : String)
    (fontOutcome : FontFetchOutcome) (sigLoad : Option SigImage) :
    (downloadReportPDF c hasUrl language fontOutcome sigLoad).savedFilename
      = some ("Patient-Report-Visit-" ++ toString c.id ++ ".pdf")
    ∧ DocItem.text (normalizeDrName c.doctor_name)
        ∈ (downloadReportPDF c hasUrl language fontOutcome sigLoad).items
    ∧ DocItem.text ((labelsFor language).physician)
        ∈ (downloadReportPDF c hasUrl language fontOutcome sigLoad).items
    ∧ (sigLoad = none → ∀ src,
        DocItem.image src ∉ (downloadReportPDF c hasUrl language fontOutcome sigLoad).items)
    ∧ (c.doctor_signature_filename = none → ∀ src,
        DocItem.image src ∉ (downloadReportPDF c hasUrl language fontOutcome sigLoad).items) := by
  have hnoimg : ∀ src, sigLoad = none ∨ c.doctor_signature_filename = none →
      DocItem.image src ∉ (downloadReportPDF c hasUrl language fontOutcome sigLoad).items := by
    intro src hcase
    simp only [downloadReportPDF, hreport]
    have hsec : DocItem.image src ∉ addSection (addSection (addSection (addSection
        ([.shape, .text (labelsFor language).title,
          .text ("Consultation #" ++ toString c.id ++ "  |  " ++ c.created_at),
          .shape, .shape,
          .text (labelsFor language).patient, .text (labelsFor language).doctor,
          .text (jsStrOr c.patient_name ("Patient #" ++ toString c.patient_id)),
          .text (normalizeDrName c.doctor_name)] : List DocItem)
        (labelsFor language).diagnosis r.diagnosis_summary)
        (labelsFor language).medication r.medication_instructions)
        (labelsFor language).warning r.warning_signs)
        (labelsFor language).instructions r.content := by
      apply addSection_image_not_mem
      apply addSection_image_not_mem
      apply addSection_image_not_mem
      apply addSection_image_not_mem
      simp
    rcases hcase with hnone | hnofile
    · subst hnone
      simp [hsec]
    · simp [hnofile, hsec]
  refine ⟨?_, ?_, ?_, fun hnone src => hnoimg src (Or.inl hnone),
    fun hnofile src => hnoimg src (Or.inr hnofile)⟩
  · simp [downloadReportPDF, hreport]
  · simp [downloadReportPDF, hreport]
  · simp [downloadReportPDF, hreport]

/-- Patient report used by the PDF witnesses. -/
def prSample : PatientReport :=
  ⟨some "viral infection", some "paracetamol twice daily", none,
   some "rest and fluids", "2024-01-02"⟩

/-- Consultation with a patient report and a signature reference whose image
load fails, used by the C3 witness. -/
def cWithReport : Consultation :=
  ⟨7, 3, "completed", "2024-01-01", some "Asha", some "Meena",
   some "sig_1.png", none, none, some prSample, [], []⟩

/-- Witness for C3: the export of `cWithReport` with a failed signature load
still saves and contains the text-only signature line, with no image. -/
theorem C3_pdf_export_signature_fallback_witness :
    (downloadReportPDF cWithReport true "en" .ok none).savedFilename
      = some "Patient-Report-Visit-7.pdf"
    ∧ DocItem.text "Dr. Meena" ∈ (downloadReportPDF cWithReport true "en" .ok none).items
    ∧ DocItem.text "Consulting Physician"
        ∈ (downloadReportPDF cWithReport true "en" .ok none).items
    ∧ DocItem.image "sig_1.png" ∉ (downloadReportPDF cWithReport true "en" .ok none).items := by
  have h := C3_pdf_export_signature_fallback cWithReport prSample rfl true "en" .ok none
  refine ⟨h.1, ?_, ?_, h.2.2.2.1 rfl "sig_1.png"⟩
  · have hdr : normalizeDrName cWithReport.doctor_name = "Dr. Meena" := by decide
    simpa [hdr] using h.2.1
  · simpa [labelsFor, PDF_LABELS, pdfLabelsEn] using h.2.2.1

/-- C9: with no patient report, `downloadReportPDF` returns before building
the document: nothing is saved, no items are emitted, and neither the font
resource nor the signature image is fetched. -/
theorem C9_pdf_early_return_without_report (c : Consultation)
    (hnone : c.patient_report = none) (hasUrl : Bool) (language : String)
    (fontOutcome : FontFetchOutcome) (sigLoad : Option SigImage) :
    downloadReportPDF c hasUrl language fontOutcome sigLoad
      = ⟨none, [], false, false⟩ := by
  simp [downloadReportPDF, hnone]

/-- Consultation without a patient report, used by the C9 witness. -/
def cNoReport : Consultation :=
  ⟨8, 3, "open", "2024-01-05", some "Asha", some "Meena", some "sig_1.png",
   none, none, none, [], []⟩

/-- Witness for C9: a consultation lacking a patient report produces no
save, no items and no fetches, even with a signature reference present. -/
theorem C9_pdf_early_return_without_report_witness :
    downloadReportPDF cNoReport true "ta" .notOk (some ⟨10, 5, "sig_1.png"⟩)
      = ⟨none, [], false, false⟩ :=
  C9_pdf_early_return_without_report cNoReport rfl true "ta" .notOk
    (some ⟨10, 5, "sig_1.png"⟩)

/- ───────────── Dashboard effects: language-change refetch ─────────────

PatientDashboard.jsx lines 90-103: the language-change effect sets loading,
issues `patientVisits(language)` and applies `.then` / `.catch` / `.finally`
with NO cancellation guard — every resolution is applied, whichever request
it belongs to.  DoctorDashboard.jsx lines 24-43: the effect carries a
`cancelled` flag set by the cleanup when a newer effect starts; the flag
guards `setCurrentConsultation`, `setError` and `setLanguageLoading`, but
NOT the `setConsultations` inside `loadConsultations`.

Each language change (the mount included) issues a fetch tagged with a
fresh generation; `latest` is the generation of the most recent effect, so a
request with `gen ≠ latest` is exactly one whose effect has been cleaned up
(its `cancelled` flag set).  The step functions below consult the generation
only where the source consults `cancelled`.
-/

/-- Message of `t.failedLoad` for the language of the failing request
(`translations[language] || translations.en`). -/
def failedLoadMsg (language : String) : String :=
  if language = "ta" then "வருகைகளை ஏற்ற முடியவில்லை"
  else if language = "hi" then "दौरे लोड करने में विफल"
  else "Failed to load visits"

/-- View-model state of `PatientDashboard`. -/
structure PDState where
  visits : List Consultation
  selectedVisit : Option Consultation
  loading : Bool
  error : String
  language : String
  latest : Nat
  deriving DecidableEq

/-- Events of the PatientDashboard language-change effect: an effect run
(language change or mount) issuing the fetch of generation `latest + 1`, and
the resolution or rejection of the fetch of a given generation (the rejection
closure captures the `t` of its own request's language). -/
inductive PDEvent where
  | changeLanguage (language : String)
  | fetchResolve (gen : Nat) (data : List Consultation)
  | fetchReject (gen : Nat) (language : String)
  deriving DecidableEq

/-- Embedding of the PatientDashboard effect: note that `fetchResolve` and
`fetchReject` ignore their generation, exactly as the source applies every
`.then` / `.catch` with no cancellation guard. -/
def pdStep (s : PDState) (e : PDEvent) : PDState :=
  match e with
  | .changeLanguage lang =>
      { s with language := lang, loading := true, latest := s.latest + 1 }
  | .fetchResolve _ data =>
      { s with visits := data,
               selectedVisit := nextSelectedVisit s.selectedVisit data,
               loading := false }
  | .fetchReject _ lang =>
      { s with error := failedLoadMsg lang, loading := false }

/-- Runs a PatientDashboard event trace. -/
def pdRun (s : PDState) (es : List PDEvent) : PDState := es.foldl pdStep s

/-- Initial PatientDashboard state (`useState` initializers). -/
def pdInit : PDState := ⟨[], none, true, "", "en", 0⟩

/-- View-model state of `DoctorDashboard`. -/
structure DDState where
  consultations : List Consultation
  currentConsultation : Option Consultation
  error : String
  languageLoading : Bool
  latest : Nat
  deriving DecidableEq

/-- Events of the DoctorDashboard language-change effect: an effect run, the
resolution or rejection of the `listConsultations` fetch, the resolution or
rejection of the follow-up `getConsultation` fetch, and the `finally` of the
effect body. -/
inductive DDEvent where
  | changeLanguage (language : String)
  | listResolve (gen : Nat) (data : List Consultation)
  | listReject (gen : Nat)
  | consultResolve (gen : Nat) (updated : Consultation)
  | consultReject (gen : Nat) (message : String)
  | effectSettled (gen : Nat)
  deriving DecidableEq

/-- Embedding of the DoctorDashboard effect.  `loadConsultations` applies
`setConsultations` and its own `catch` with no guard; the effect body checks
`!cancelled` — here `gen = latest` — before `setCurrentConsultation`, in its
`catch` before `setError`, and in its `finally` before
`setLanguageLoading(false)`. -/
def ddStep (s : DDState) (e : DDEvent) : DDState :=
  match e with
  | .changeLanguage _ =>
      { s with latest := s.latest + 1, languageLoading := true, error := "" }
  | .listResolve _ data => { s with consultations := data }
  | .listReject _ => { s with error := "Failed to load consultations" }
  | .consultResolve g updated =>
      if g = s.latest then { s with currentConsultation := some updated } else s
  | .consultReject g msg =>
      if g = s.latest then { s with error := msg } else s
  | .effectSettled g =>
      if g = s.latest then { s with languageLoading := false } else s

/-- Runs a DoctorDashboard event trace. -/
def ddRun (s : DDState) (es : List DDEvent) : DDState := es.foldl ddStep s

/-- Initial DoctorDashboard state. -/
def ddInit : DDState := ⟨[], none, "", false, 0⟩

/-- Counterexample to C2 as stated: in `PatientDashboard`, the fetch of
generation 1 (superseded by the language change that issued generation 2) is
applied after the fresher generation-2 response, so the stale response
overwrites the fresher visits — it is not ignored. -/
theorem C2_counterexample :
    (pdRun pdInit [.changeLanguage "en", .changeLanguage "ta",
        .fetchResolve 2 [cSampleB], .fetchResolve 1 [cSampleA]]).visits = [cSampleA]
    ∧ [cSampleA] ≠ [cSampleB] := by
  refine ⟨rfl, by decide⟩

/-- C2 (amended): in `DoctorDashboard` the `cancelled` flag does protect the
selected consultation — a `getConsultation` response belonging to a
superseded effect never changes `currentConsultation`, as the concrete
supersession trace also shows — but the consultations-list update is applied
unconditionally in `DoctorDashboard`, and `PatientDashboard` applies every
visits response unconditionally. -/
theorem C2_stale_language_fetch (s : DDState) (g : Nat) (u : Consultation)
    (hstale : g ≠ s.latest) :
    (ddStep s (.consultResolve g u)).currentConsultation = s.currentConsultation
    ∧ (ddRun ddInit [.changeLanguage "en", .changeLanguage "ta",
        .consultResolve 2 cSampleB, .consultResolve 1 cSampleA]).currentConsultation
        = some cSampleB
    ∧ (∀ s' : DDState, ∀ g' : Nat, ∀ data : List Consultation,
        (ddStep s' (.listResolve g' data)).consultations = data)
    ∧ (∀ s' : PDState, ∀ g' : Nat, ∀ data : List Consultation,
        (pdStep s' (.fetchResolve g' data)).visits = data) := by
  refine ⟨?_, by decide, fun s' g' data => rfl, fun s' g' data => rfl⟩
  simp [ddStep, hstale]

/-- Witness for C2 (amended): a response of generation 1 arriving while the
latest effect is generation 2 leaves the selected consultation unchanged. -/
theorem C2_stale_language_fetch_witness :
    (ddStep ⟨[], some cSampleB, "", true, 2⟩ (.consultResolve 1 cSampleA)).currentConsultation
      = some cSampleB :=
  (C2_stale_language_fetch ⟨[], some cSampleB, "", true, 2⟩ 1 cSampleA (by decide)).1

/- ───────────────── C8: error handling on fetch failure ─────────────────

PatientDashboard.jsx lines 105-124: the render returns the loading spinner
when `loading && visits.length === 0`, then returns the error-only view
whenever `error` is non-empty — regardless of whether visits were loaded
before — and only otherwise renders the visit data.
-/

/-- The three top-level renders of `PatientDashboard`. -/
inductive PDView where
  | loadingView
  | errorView (message : String)
  | mainView (visits : List Consultation) (displayVisit : Option Consultation)
  deriving DecidableEq

/-- Embedding of the PatientDashboard render:
`displayVisit = selectedVisit || visits[0]`. -/
def renderPatientDashboard (s : PDState) : PDView :=
  if s.loading ∧ s.visits = [] then .loadingView
  else if s.error ≠ "" then .errorView s.error
  else .mainView s.visits
    (match s.selectedVisit with
     | some v => some v
     | none => s.visits.head?)

lemma failedLoadMsg_ne_empty (language : String) : failedLoadMsg language ≠ "" := by
  unfold failedLoadMsg
  by_cases hta : language = "ta"
  · simp [hta]
  · by_cases hhi : language = "hi"
    · simp [hta, hhi]
    · simp [hta, hhi]

/-- Counterexample to C8 as stated: after a successful load of one visit and
a failing refetch for Hindi, the dashboard renders the error-only view, not
the previously loaded data — even though the visit is still in state. -/
theorem C8_counterexample :
    renderPatientDashboard (pdRun pdInit [.changeLanguage "en",
        .fetchResolve 1 [cSampleA], .changeLanguage "hi", .fetchReject 2 "hi"])
      = .errorView "दौरे लोड करने में विफल"
    ∧ (pdRun pdInit [.changeLanguage "en", .fetchResolve 1 [cSampleA],
        .changeLanguage "hi", .fetchReject 2 "hi"]).visits = [cSampleA]
    ∧ PDView.errorView "दौरे लोड करने में विफल"
        ≠ PDView.mainView [cSampleA] (some cSampleA) := by
  refine ⟨by decide, by decide, by decide⟩

/-- C8 (amended): a fetch failure sets the language-specific, non-empty
human-readable message and leaves the previously loaded visits (and
selection) untouched in state, but the rendered view then is the error-only
view for every state — with prior data and without — not just on the very
first load. -/
theorem C8_failure_keeps_state_but_renders_error (s : PDState) (g : Nat)
    (language : String) :
    (pdStep s (.fetchReject g language)).visits = s.visits
    ∧ (pdStep s (.fetchReject g language)).selectedVisit = s.selectedVisit
    ∧ (pdStep s (.fetchReject g language)).error = failedLoadMsg language
    ∧ failedLoadMsg language ≠ ""
    ∧ renderPatientDashboard (pdStep s (.fetchReject g language))
        = .errorView (failedLoadMsg language) := by
  refine ⟨rfl, rfl, rfl, failedLoadMsg_ne_empty language, ?_⟩
  simp [renderPatientDashboard, pdStep, failedLoadMsg_ne_empty language]
